import Mathlib

/-
Verification of the commsProject relay/VoIP system: a shallow embedding of
the jitter buffer (src/client.py, src/receiver.py) and of the relay server's
registry, control-channel handler, UDP forwarder and heartbeat sweeper
(src/server.py), with theorems settling the frozen claims about them.

Conventions of the embedding:
  - Python byte strings and host strings are modelled as `List Nat` (byte
    values); the ASCII decode used on HELLO's target field is the identity
    on the byte lists that occur here, so hosts are compared as byte lists.
  - Python ints are `Nat` (all the quantities involved are non-negative);
    the one subtraction in the code, `seq_num < expected - max_size`, is
    rendered as `seq_num + max_size < expected`, which is equivalent over
    the integers.
  - Python dicts are association lists with in-place update on an existing
    key and append on a new key, matching dict insertion-order semantics.
  - `collections.deque(maxlen=m)` append is `dappend`: when the deque is
    full the leftmost element is discarded.
-/

/-! ## Jitter buffer (src/client.py lines 52-95, src/receiver.py lines 28-64) -/

/-- The key order used by `temp.sort(key=lambda x: x[0])`. -/
def seqLE {α : Type} (a b : Nat × α) : Prop := a.1 ≤ b.1

instance {α : Type} : DecidableRel (@seqLE α) := fun a b => Nat.decLe a.1 b.1

instance {α : Type} : IsTotal (Nat × α) seqLE := ⟨fun a b => Nat.le_total a.1 b.1⟩

instance {α : Type} : IsTrans (Nat × α) seqLE := ⟨fun _ _ _ => Nat.le_trans⟩

instance {α : Type} : DecidableRel (fun (a b : Nat × α) => a.1 < b.1) :=
  fun a b => Nat.decLt a.1 b.1

/-- Deque append with bound `m` (Python `collections.deque` with maxlen `m`): when the deque already holds `m`
elements the leftmost is dropped (for `m = 0` nothing is ever stored). -/
def dappend {α : Type} (m : Nat) (buf : List α) (x : α) : List α :=
  if buf.length + 1 ≤ m then buf ++ [x] else (buf ++ [x]).drop (buf.length + 1 - m)

/-- The jitter buffer state: `buffer` is the deque of `(seq_num, payload)`
pairs, `max_size` its capacity, `expected_seq_num` the scalar that `None`
initialises (here `Option.none`). Shared by src/client.py and
src/receiver.py, whose `__init__` bodies are identical. -/
structure JitterBuffer (α : Type) where
  buffer : List (Nat × α)
  max_size : Nat
  expected_seq_num : Option Nat
deriving DecidableEq

/-- Constructor `JitterBuffer.__init__`. -/
def mkJitterBuffer (α : Type) (max_size : Nat) : JitterBuffer α :=
  { buffer := [], max_size := max_size, expected_seq_num := none }

/-- The guard `self.expected_seq_num is not None and
seq_num < self.expected_seq_num - self.max_size`. -/
def isStale {α : Type} (jb : JitterBuffer α) (seq_num : Nat) : Bool :=
  match jb.expected_seq_num with
  | some e => decide (seq_num + jb.max_size < e)
  | none => false

/-- Insertion `JitterBuffer.add_packet` (src/client.py lines 66-85; the body in
src/receiver.py lines 34-51 is identical): reject stale sequences; an
insertion into an empty buffer re-anchors `expected_seq_num`; reject
duplicates; otherwise append, sort by sequence, and keep the last
`max_size` entries (`temp[-max_size:]` refilled through the deque). -/
def add_packet {α : Type} (jb : JitterBuffer α) (seq_num : Nat) (payload : α) :
    JitterBuffer α × Bool :=
  if isStale jb seq_num then (jb, false)
  else if jb.buffer.isEmpty then
    ({ jb with buffer := dappend jb.max_size jb.buffer (seq_num, payload),
               expected_seq_num := some seq_num }, true)
  else if seq_num ∈ jb.buffer.map Prod.fst then (jb, false)
  else
    let temp := List.insertionSort seqLE (jb.buffer ++ [(seq_num, payload)])
    let kept := if jb.max_size = 0 then temp else temp.drop (temp.length - jb.max_size)
    ({ jb with buffer := kept.foldl (fun b x => dappend jb.max_size b x) [] }, true)

/-- The buffer produced by the sorting branch of `add_packet`: append the
new pair, sort by sequence, keep `temp[-max_size:]`, refill the deque. -/
def sortResult {α : Type} (jb : JitterBuffer α) (seq_num : Nat) (payload : α) :
    List (Nat × α) :=
  let temp := List.insertionSort seqLE (jb.buffer ++ [(seq_num, payload)])
  let kept := if jb.max_size = 0 then temp else temp.drop (temp.length - jb.max_size)
  kept.foldl (fun b x => dappend jb.max_size b x) []

/-- Emission `JitterBuffer.get_packet` of src/client.py lines 90-95: if non-empty,
unconditionally pop the leftmost (smallest-sequence) entry and set
`expected_seq_num = seq_num + 1`. -/
def get_packet {α : Type} (jb : JitterBuffer α) : JitterBuffer α × Option (Nat × α) :=
  match jb.buffer with
  | [] => (jb, none)
  | (s, d) :: rest =>
    ({ jb with buffer := rest, expected_seq_num := some (s + 1) }, some (s, d))

/-- Emission `JitterBuffer.get_packet` of src/receiver.py lines 53-61: peek at the
leftmost entry; pop it only when `expected_seq_num` is unset or
`seq_num <= expected_seq_num`, else return nothing and change nothing. -/
def receiver_get_packet {α : Type} (jb : JitterBuffer α) :
    JitterBuffer α × Option (Nat × α) :=
  match jb.buffer with
  | [] => (jb, none)
  | (s, d) :: rest =>
    match jb.expected_seq_num with
    | none => ({ jb with buffer := rest, expected_seq_num := some (s + 1) }, some (s, d))
    | some e =>
      if s ≤ e then
        ({ jb with buffer := rest, expected_seq_num := some (s + 1) }, some (s, d))
      else (jb, none)

/-- One call against the jitter buffer: an insertion, or a drain through
either variant's `get_packet`. -/
inductive JBOp (α : Type) where
  | add (seq_num : Nat) (payload : α)
  | getClient
  | getReceiver

/-- State reached after one jitter-buffer call (results discarded). -/
def applyOp {α : Type} (jb : JitterBuffer α) : JBOp α → JitterBuffer α
  | .add s d => (add_packet jb s d).1
  | .getClient => (get_packet jb).1
  | .getReceiver => (receiver_get_packet jb).1

/-- State reached after a sequence of jitter-buffer calls. -/
def applyOps {α : Type} (jb : JitterBuffer α) (ops : List (JBOp α)) : JitterBuffer α :=
  ops.foldl applyOp jb

/-- The jitter-buffer well-formedness observed on every reachable state:
entries strictly increasing by sequence (hence sorted and duplicate-free)
and no more numerous than the capacity. -/
def WF {α : Type} (jb : JitterBuffer α) : Prop :=
  jb.buffer.Pairwise (fun a b => a.1 < b.1) ∧ jb.buffer.length ≤ jb.max_size

instance {α : Type} (jb : JitterBuffer α) : Decidable (WF jb) :=
  inferInstanceAs
    (Decidable (jb.buffer.Pairwise (fun (a b : Nat × α) => a.1 < b.1) ∧
      jb.buffer.length ≤ jb.max_size))

/-- Constant `JITTER_BUFFER_SIZE` of src/client.py. -/
def JITTER_BUFFER_SIZE : Nat := 8

/-- Constant `JITTER_BUFFER_SIZE` of src/receiver.py. -/
def RECEIVER_JITTER_BUFFER_SIZE : Nat := 4

/-! ## Relay server registry (src/server.py) -/

/-- Hosts (IPv4 literals in the code) as byte lists. -/
abbrev Host := List Nat

/-- A registry record `(listen_port, target_ip, target_port)`; `target_port`
is `None` until resolved. -/
abbrev Rec := Nat × Host × Option Nat

/-- The `clients` dict. -/
abbrev RegMap := List (Host × Rec)

/-- The `last_heartbeat` dict (timestamps as `Nat`). -/
abbrev HeartMap := List (Host × Nat)

/-- Dict lookup: first (unique) binding of the key. -/
def dlookup {β : Type} : List (Host × β) → Host → Option β
  | [], _ => none
  | (k', v) :: t, k => if k' = k then some v else dlookup t k

/-- Dict store `d[k] = v`: update in place when the key exists, append at the
end otherwise (Python dict insertion-order semantics). -/
def dinsert {β : Type} (k : Host) (v : β) : List (Host × β) → List (Host × β)
  | [] => [(k, v)]
  | (k', v') :: t => if k' = k then (k, v) :: t else (k', v') :: dinsert k v t

/-- Dict removal `d.pop(k, None)`: drops the binding of `k`. (Python removes
the single entry of the key; on the unique-key dicts the server maintains
this filter form is the same function.) -/
def derase {β : Type} (k : Host) (l : List (Host × β)) : List (Host × β) :=
  l.filter (fun p => decide (p.1 ≠ k))

/-- Responses of the TCP handler. -/
inductive Reply where
  | WELCOME
  | FULL
  | INVALID
  | ALIVE
  | BYE
deriving DecidableEq

/-- The relay's mutable state: the `clients` registry and the
`last_heartbeat` table. -/
structure ServerState where
  clients : RegMap
  heartbeat : HeartMap
deriving DecidableEq

/-- Constant `MAX_CLIENTS` of src/server.py. -/
def MAX_CLIENTS : Nat := 10

/-- Constant `HEARTBEAT_TIMEOUT` of src/server.py. -/
def HEARTBEAT_TIMEOUT : Nat := 120

/-- The registry mutation of an accepted HELLO (src/server.py lines 96-103):
register the caller, then, re-reading the dict exactly as the code does,
resolve the caller's `target_port` from the target's record and, when the
target names the caller back, resolve the target's `target_port` too. -/
def helloClients (c : RegMap) (X : Host) (client_port : Nat) (target_ip : Host) : RegMap :=
  let c1 := dinsert X (client_port, target_ip, none) c
  match dlookup c1 target_ip with
  | none => c1
  | some r =>
    let c2 := dinsert X (client_port, target_ip, some r.1) c1
    match dlookup c2 target_ip with
    | none => c2
    | some r2 =>
      if r2.2.1 = X then dinsert target_ip (r2.1, X, some client_port) c2 else c2

/-- The HELLO branch of `handle_tcp_client` (src/server.py lines 94-110):
accept and register while `len(clients) < MAX_CLIENTS`, also refreshing the
caller's heartbeat entry; reply FULL and change nothing otherwise. -/
def helloStep (s : ServerState) (X : Host) (client_port : Nat) (target_ip : Host)
    (now : Nat) : ServerState × Reply :=
  if s.clients.length < MAX_CLIENTS then
    ({ clients := helloClients s.clients X client_port target_ip,
       heartbeat := dinsert X now s.heartbeat }, Reply.WELCOME)
  else (s, Reply.FULL)

/-- The HEARTBEAT branch (src/server.py lines 111-115): refresh the caller's
`last_heartbeat` unconditionally and reply ALIVE. -/
def heartbeatStep (s : ServerState) (X : Host) (now : Nat) : ServerState × Reply :=
  ({ s with heartbeat := dinsert X now s.heartbeat }, Reply.ALIVE)

/-- The DISCONNECT branch (src/server.py lines 116-122): drop the caller from
both tables and reply BYE. -/
def disconnectStep (s : ServerState) (X : Host) : ServerState × Reply :=
  ({ clients := derase X s.clients, heartbeat := derase X s.heartbeat }, Reply.BYE)

/-- One pass of `heartbeat_monitor` (src/server.py lines 154-173): collect the
hosts whose heartbeat age exceeds `HEARTBEAT_TIMEOUT`, then remove them from
the registry and then from the heartbeat table. -/
def sweepStep (s : ServerState) (now : Nat) : ServerState :=
  let to_remove := (s.heartbeat.filter (fun q => decide (HEARTBEAT_TIMEOUT < now - q.2))).map Prod.fst
  { clients := to_remove.foldl (fun c h => derase h c) s.clients,
    heartbeat := to_remove.foldl (fun hb h => derase h hb) s.heartbeat }

/-- The UDP forwarder `handle_client` (src/server.py lines 45-58): result is
the list of datagrams `(payload, target_host, target_port)` emitted. An
unregistered source is dropped; `if target_ip and target_port:` forwards
only when the target host is non-empty and the target port is known and
non-zero (Python truthiness). -/
def handle_client (clients : RegMap) (data : List Nat) (srcHost : Host) :
    List (List Nat × Host × Nat) :=
  match dlookup clients srcHost with
  | none => []
  | some (_, target_ip, target_port) =>
    match target_port with
    | none => []
    | some tp => if target_ip ≠ [] ∧ tp ≠ 0 then [(data, target_ip, tp)] else []

/-- Big-endian decode `struct.unpack` with format >I on a 4-byte string. -/
def be32 : List Nat → Nat
  | [a, b, c, d] => ((a * 256 + b) * 256 + c) * 256 + d
  | _ => 0

/-- Big-endian encode `struct.pack` with format >I. -/
def be32bytes (p : Nat) : List Nat :=
  [p / 16777216 % 256, p / 65536 % 256, p / 256 % 256, p % 256]

/-- The bytes of `b"HELLO"`. -/
def helloTag : List Nat := [72, 69, 76, 76, 79]

/-- The bytes of `b"HEARTBEAT"`. -/
def heartbeatTag : List Nat := [72, 69, 65, 82, 84, 66, 69, 65, 84]

/-- The bytes of `b"DISCONNECT"`. -/
def disconnectTag : List Nat := [68, 73, 83, 67, 79, 78, 78, 69, 67, 84]

/-- Handler `handle_tcp_client` (src/server.py lines 82-125) at the byte level:
dispatch on the received data, parsing HELLO as the 5-byte tag, a 4-byte
big-endian port and the remaining bytes as the target host. -/
def handle_tcp_client (data : List Nat) (srcHost : Host) (now : Nat) (s : ServerState) :
    ServerState × Reply :=
  if helloTag.isPrefixOf data then
    if data.length < 9 then (s, Reply.INVALID)
    else helloStep s srcHost (be32 ((data.drop 5).take 4)) (data.drop 9) now
  else if data = heartbeatTag then heartbeatStep s srcHost now
  else if data = disconnectTag then disconnectStep s srcHost
  else (s, Reply.INVALID)

/-- The mutual-pairing resolution property over a registry: whenever two
records name each other's hosts as targets, each one's `target_port` is the
other's `listen_port`. -/
def PairInv (c : RegMap) : Prop :=
  ∀ A B pa ta qa pb tb qb,
    dlookup c A = some (pa, ta, qa) → dlookup c B = some (pb, tb, qb) →
    ta = B → tb = A → qa = some pb ∧ qb = some pa

/-- Server states reachable from the empty tables by HELLO, HEARTBEAT,
DISCONNECT and sweeper passes. -/
inductive Reachable : ServerState → Prop where
  | init : Reachable { clients := [], heartbeat := [] }
  | hello {s} (X : Host) (p : Nat) (t : Host) (now : Nat) :
      Reachable s → Reachable (helloStep s X p t now).1
  | heartbeat {s} (X : Host) (now : Nat) :
      Reachable s → Reachable (heartbeatStep s X now).1
  | disconnect {s} (X : Host) :
      Reachable s → Reachable (disconnectStep s X).1
  | sweep {s} (now : Nat) :
      Reachable s → Reachable (sweepStep s now)

/-! ## Client receive loops (src/client.py lines 235-252, src/receiver.py lines 108-135) -/

/-- Constant `EOT_SEQ_NUM`, shared by both client variants. -/
def EOT_SEQ_NUM : Nat := 99999999

/-- Constant `BYTES_PER_PACKET = 882 * 2` (src/client.py line 37; src/receiver.py
computes the same value as `SAMPLES_PER_PACKET * 2`). -/
def BYTES_PER_PACKET : Nat := 1764

/-- The state a receive-loop iteration can change: the jitter buffer and the
`eot_received` flag. -/
structure RecvState where
  jb : JitterBuffer (List Nat)
  eot_received : Bool
deriving DecidableEq

/-- One iteration of `Client.receive_audio` (src/client.py lines 235-252) on
a received datagram. The source address is bound by `recvfrom` but never
examined: packets from any host are processed alike. -/
def receive_audio_step (st : RecvState) (packet : List Nat) (_srcHost : Host) : RecvState :=
  if packet.length < 4 then st
  else
    let seq_num := be32 (packet.take 4)
    let payload := packet.drop 4
    if seq_num = EOT_SEQ_NUM then { st with eot_received := true }
    else if payload.length = BYTES_PER_PACKET then
      { st with jb := (add_packet st.jb seq_num payload).1 }
    else st

/-- One iteration of `Receiver.start` (src/receiver.py lines 114-131) on a
received datagram: a packet whose source host differs from `server_ip`, or
that is shorter than 4 bytes, is discarded before any parsing. -/
def receiver_start_step (server_ip : Host) (st : RecvState) (packet : List Nat)
    (srcHost : Host) : RecvState :=
  if srcHost ≠ server_ip ∨ packet.length < 4 then st
  else
    let seq_num := be32 (packet.take 4)
    let payload := packet.drop 4
    if seq_num = EOT_SEQ_NUM then { st with eot_received := true }
    else if payload.length = BYTES_PER_PACKET then
      { st with jb := (add_packet st.jb seq_num payload).1 }
    else st

/-- A registry of ten distinct one-byte hosts built by ten accepted HELLOs,
used to exercise the capacity bound. -/
def fullState : ServerState :=
  (List.range 10).foldl (fun s i => (helloStep s [i] 100 [99] 0).1)
    { clients := [], heartbeat := [] }

/-! ## Dictionary lemmas -/

theorem dlookup_dinsert_self {β : Type} (l : List (Host × β)) (k : Host) (v : β) :
    dlookup (dinsert k v l) k = some v := by
  induction l with
  | nil => simp [dinsert, dlookup]
  | cons p t ih =>
    obtain ⟨k', v'⟩ := p
    by_cases h : k' = k
    · simp [dinsert, h, dlookup]
    · simp [dinsert, h, dlookup, ih]

theorem dlookup_dinsert_ne {β : Type} (l : List (Host × β)) (k : Host) (v : β)
    (a : Host) (h : a ≠ k) : dlookup (dinsert k v l) a = dlookup l a := by
  have h' : ¬(k = a) := fun e => h e.symm
  induction l with
  | nil => simp [dinsert, dlookup, h']
  | cons p t ih =>
    obtain ⟨k', v'⟩ := p
    by_cases hk : k' = k
    · subst hk
      simp [dinsert, dlookup, h']
    · simp [dinsert, hk, dlookup, ih]

theorem dinsert_dinsert {β : Type} (l : List (Host × β)) (k : Host) (v w : β) :
    dinsert k v (dinsert k w l) = dinsert k v l := by
  induction l with
  | nil => simp [dinsert]
  | cons p t ih =>
    obtain ⟨k', v'⟩ := p
    by_cases h : k' = k
    · simp [dinsert, h]
    · simp [dinsert, h, ih]

theorem dlookup_derase {β : Type} (l : List (Host × β)) (k a : Host) :
    dlookup (derase k l) a = if a = k then none else dlookup l a := by
  induction l with
  | nil => simp [derase, dlookup]
  | cons p t ih =>
    obtain ⟨k', v'⟩ := p
    by_cases hk : k' = k
    · subst hk
      have hdrop : derase k' ((k', v') :: t) = derase k' t := by
        simp [derase]
      rw [hdrop, ih]
      by_cases ha : a = k'
      · simp [ha]
      · have hka : ¬(k' = a) := fun e => ha e.symm
        simp [ha, hka, dlookup]
    · have hkeep : derase k ((k', v') :: t) = (k', v') :: derase k t := by
        simp [derase, hk]
      rw [hkeep]
      by_cases ha : k' = a
      · subst ha
        have hne : ¬(k' = k) := hk
        simp [dlookup, fun e : k' = k => hk e]
      · simp [dlookup, ha, ih]

/-! ## Jitter buffer lemmas -/

theorem dappend_nil {α : Type} (m : Nat) (x : α) :
    dappend m [] x = if 1 ≤ m then [x] else [] := by
  unfold dappend
  by_cases hm : 1 ≤ m
  · simp [hm]
  · have hm0 : m = 0 := by omega
    subst hm0
    simp

theorem foldl_dappend_eq {α : Type} (m : Nat) :
    ∀ (l acc : List α), acc.length + l.length ≤ m →
      l.foldl (fun b x => dappend m b x) acc = acc ++ l := by
  intro l
  induction l with
  | nil => intro acc _; simp
  | cons x t ih =>
    intro acc h
    simp only [List.foldl_cons]
    have h1 : acc.length + 1 ≤ m := by
      simp [List.length_cons] at h
      omega
    have hx : dappend m acc x = acc ++ [x] := by
      unfold dappend
      rw [if_pos h1]
    rw [hx, ih (acc ++ [x]) (by simp at h ⊢; omega)]
    simp

theorem foldl_dappend_zero {α : Type} :
    ∀ (l : List α), l.foldl (fun b x => dappend 0 b x) [] = [] := by
  intro l
  induction l with
  | nil => rfl
  | cons x t ih =>
    simp only [List.foldl_cons]
    have hx : dappend 0 ([] : List α) x = [] := by
      simp [dappend]
    rw [hx, ih]

theorem keys_nodup_of_pairwise {α : Type} {l : List (Nat × α)}
    (h : l.Pairwise (fun a b => a.1 < b.1)) : (l.map Prod.fst).Nodup := by
  rw [List.Nodup, List.pairwise_map]
  exact h.imp fun hab => Nat.ne_of_lt hab

theorem temp_pairwise_lt {α : Type} {l : List (Nat × α)} {s : Nat} {d : α}
    (hpair : l.Pairwise (fun a b => a.1 < b.1)) (hmem : s ∉ l.map Prod.fst) :
    (List.insertionSort seqLE (l ++ [(s, d)])).Pairwise (fun a b => a.1 < b.1) ∧
    (List.insertionSort seqLE (l ++ [(s, d)])).Perm (l ++ [(s, d)]) := by
  have hperm := List.perm_insertionSort seqLE (l ++ [(s, d)])
  have hsort : (List.insertionSort seqLE (l ++ [(s, d)])).Pairwise seqLE :=
    List.sorted_insertionSort seqLE (l ++ [(s, d)])
  have hkeys : ((l ++ [(s, d)]).map Prod.fst).Nodup := by
    rw [List.map_append, List.nodup_append]
    refine ⟨keys_nodup_of_pairwise hpair, List.nodup_singleton s, ?_⟩
    intro a ha hb
    simp at hb
    subst hb
    exact hmem ha
  have hkeys2 : ((List.insertionSort seqLE (l ++ [(s, d)])).map Prod.fst).Nodup :=
    ((hperm.map Prod.fst).nodup_iff).mpr hkeys
  have hne : (List.insertionSort seqLE (l ++ [(s, d)])).Pairwise (fun a b => a.1 ≠ b.1) := by
    rw [List.Nodup, List.pairwise_map] at hkeys2
    exact hkeys2
  exact ⟨(hsort.and hne).imp (fun hab => Nat.lt_of_le_of_ne hab.1 hab.2), hperm⟩

theorem add_packet_eq_stale {α : Type} (jb : JitterBuffer α) (s : Nat) (d : α)
    (hst : isStale jb s = true) : add_packet jb s d = (jb, false) := by
  simp [add_packet, hst]

theorem add_packet_eq_empty {α : Type} (jb : JitterBuffer α) (s : Nat) (d : α)
    (hst : isStale jb s = false) (hemp : jb.buffer.isEmpty = true) :
    add_packet jb s d =
      ({ jb with buffer := dappend jb.max_size jb.buffer (s, d),
                 expected_seq_num := some s }, true) := by
  simp [add_packet, hst, hemp]

theorem add_packet_eq_dup {α : Type} (jb : JitterBuffer α) (s : Nat) (d : α)
    (hst : isStale jb s = false) (hemp : jb.buffer.isEmpty = false)
    (hdup : s ∈ jb.buffer.map Prod.fst) : add_packet jb s d = (jb, false) := by
  simp [add_packet, hst, hemp, hdup]

theorem add_packet_eq_sort {α : Type} (jb : JitterBuffer α) (s : Nat) (d : α)
    (hst : isStale jb s = false) (hemp : jb.buffer.isEmpty = false)
    (hdup : s ∉ jb.buffer.map Prod.fst) :
    add_packet jb s d = ({ jb with buffer := sortResult jb s d }, true) := by
  simp [add_packet, sortResult, hst, hemp, hdup]

theorem wf_add_packet {α : Type} {jb : JitterBuffer α} (h : WF jb) (s : Nat) (d : α) :
    WF (add_packet jb s d).1 := by
  by_cases hst : isStale jb s = true
  · rw [add_packet_eq_stale _ _ _ hst]
    exact h
  · have hst' : isStale jb s = false := (Bool.not_eq_true _).mp hst
    by_cases hemp : jb.buffer.isEmpty = true
    · rw [add_packet_eq_empty _ _ _ hst' hemp]
      have hb : jb.buffer = [] := List.isEmpty_iff.mp hemp
      rw [hb, dappend_nil]
      by_cases hm : 1 ≤ jb.max_size
      · rw [if_pos hm]
        exact ⟨by simp, by simpa using hm⟩
      · rw [if_neg hm]
        exact ⟨List.Pairwise.nil, Nat.zero_le _⟩
    · have hemp' : jb.buffer.isEmpty = false := (Bool.not_eq_true _).mp hemp
      by_cases hdup : s ∈ jb.buffer.map Prod.fst
      · rw [add_packet_eq_dup _ _ _ hst' hemp' hdup]
        exact h
      · rw [add_packet_eq_sort _ _ _ hst' hemp' hdup]
        obtain ⟨hlt, hperm⟩ := @temp_pairwise_lt α jb.buffer s d h.1 hdup
        simp only [sortResult]
        by_cases hm : jb.max_size = 0
        · rw [if_pos hm, hm, foldl_dappend_zero]
          exact ⟨List.Pairwise.nil, Nat.zero_le _⟩
        · rw [if_neg hm]
          have hkle : ((List.insertionSort seqLE (jb.buffer ++ [(s, d)])).drop
              ((List.insertionSort seqLE (jb.buffer ++ [(s, d)])).length - jb.max_size)).length
              ≤ jb.max_size := by
            rw [List.length_drop]
            omega
          have hfold := foldl_dappend_eq jb.max_size
            ((List.insertionSort seqLE (jb.buffer ++ [(s, d)])).drop
              ((List.insertionSort seqLE (jb.buffer ++ [(s, d)])).length - jb.max_size)) []
            (by simpa using hkle)
          rw [hfold]
          simp only [List.nil_append]
          exact ⟨List.Pairwise.sublist (List.drop_sublist _ _) hlt, hkle⟩

theorem wf_get_packet {α : Type} {jb : JitterBuffer α} (h : WF jb) :
    WF (get_packet jb).1 := by
  obtain ⟨buf, m, e⟩ := jb
  cases buf with
  | nil => exact h
  | cons x rest =>
    obtain ⟨s, d⟩ := x
    obtain ⟨hp, hl⟩ := h
    refine ⟨(List.pairwise_cons.mp hp).2, ?_⟩
    show rest.length ≤ m
    simp at hl
    omega

theorem wf_receiver_get_packet {α : Type} {jb : JitterBuffer α} (h : WF jb) :
    WF (receiver_get_packet jb).1 := by
  obtain ⟨buf, m, e⟩ := jb
  cases buf with
  | nil => exact h
  | cons x rest =>
    obtain ⟨s, d⟩ := x
    obtain ⟨hp, hl⟩ := h
    cases e with
    | none =>
      refine ⟨(List.pairwise_cons.mp hp).2, ?_⟩
      show rest.length ≤ m
      simp at hl
      omega
    | some e' =>
      by_cases hle : s ≤ e'
      · have hr : receiver_get_packet
            { buffer := (s, d) :: rest, max_size := m, expected_seq_num := some e' } =
            ({ buffer := rest, max_size := m, expected_seq_num := some (s + 1) },
              some (s, d)) := by
          simp [receiver_get_packet, hle]
        rw [hr]
        refine ⟨(List.pairwise_cons.mp hp).2, ?_⟩
        show rest.length ≤ m
        simp at hl
        omega
      · have hr : receiver_get_packet
            { buffer := (s, d) :: rest, max_size := m, expected_seq_num := some e' } =
            ({ buffer := (s, d) :: rest, max_size := m, expected_seq_num := some e' },
              none) := by
          simp [receiver_get_packet, hle]
        rw [hr]
        exact ⟨hp, hl⟩

theorem wf_applyOps {α : Type} :
    ∀ (ops : List (JBOp α)) (jb : JitterBuffer α), WF jb → WF (applyOps jb ops) := by
  intro ops
  induction ops with
  | nil => intro jb h; exact h
  | cons op t ih =>
    intro jb h
    have h1 : WF (applyOp jb op) := by
      cases op with
      | add s d => exact wf_add_packet h s d
      | getClient => exact wf_get_packet h
      | getReceiver => exact wf_receiver_get_packet h
    simpa [applyOps, List.foldl_cons] using ih (applyOp jb op) h1

/-! ## Registry lemmas -/

theorem helloClients_eq (c : RegMap) (X : Host) (p : Nat) (T : Host) :
    helloClients c X p T =
      if T = X then dinsert X (p, X, some p) c
      else
        match dlookup c T with
        | none => dinsert X (p, T, none) c
        | some r =>
          if r.2.1 = X then dinsert T (r.1, X, some p) (dinsert X (p, T, some r.1) c)
          else dinsert X (p, T, some r.1) c := by
  by_cases hTX : T = X
  · subst hTX
    rw [if_pos rfl]
    simp [helloClients, dlookup_dinsert_self, dinsert_dinsert]
  · rw [if_neg hTX]
    unfold helloClients
    dsimp only
    rw [dlookup_dinsert_ne _ _ _ _ hTX]
    cases hT : dlookup c T with
    | none => rfl
    | some r =>
      dsimp only
      rw [dinsert_dinsert, dlookup_dinsert_ne _ _ _ _ hTX, hT]

theorem pairInv_helloClients {c : RegMap} (h : PairInv c) (X : Host) (p : Nat) (T : Host) :
    PairInv (helloClients c X p T) := by
  rw [helloClients_eq]
  by_cases hTX : T = X
  · rw [if_pos hTX]
    intro A B pa ta qa pb tb qb hA hB hta htb
    by_cases hAX : A = X
    · subst hAX
      rw [dlookup_dinsert_self] at hA
      simp only [Option.some.injEq, Prod.mk.injEq] at hA
      obtain ⟨h1, h2, h3⟩ := hA
      have hBA : B = A := by rw [← hta, ← h2]
      subst hBA
      rw [dlookup_dinsert_self] at hB
      simp only [Option.some.injEq, Prod.mk.injEq] at hB
      obtain ⟨g1, g2, g3⟩ := hB
      exact ⟨by rw [← h3, ← g1], by rw [← g3, ← h1]⟩
    · rw [dlookup_dinsert_ne _ _ _ _ hAX] at hA
      by_cases hBX : B = X
      · subst hBX
        rw [dlookup_dinsert_self] at hB
        simp only [Option.some.injEq, Prod.mk.injEq] at hB
        obtain ⟨g1, g2, g3⟩ := hB
        exact absurd (by rw [← htb, ← g2] : A = B) hAX
      · rw [dlookup_dinsert_ne _ _ _ _ hBX] at hB
        exact h A B pa ta qa pb tb qb hA hB hta htb
  · rw [if_neg hTX]
    cases hT : dlookup c T with
    | none =>
      dsimp only
      intro A B pa ta qa pb tb qb hA hB hta htb
      by_cases hAX : A = X
      · subst hAX
        rw [dlookup_dinsert_self] at hA
        simp only [Option.some.injEq, Prod.mk.injEq] at hA
        obtain ⟨h1, h2, h3⟩ := hA
        have hBT : B = T := by rw [← hta, ← h2]
        subst hBT
        rw [dlookup_dinsert_ne _ _ _ _ hTX, hT] at hB
        exact absurd hB (by simp)
      · rw [dlookup_dinsert_ne _ _ _ _ hAX] at hA
        by_cases hBX : B = X
        · subst hBX
          rw [dlookup_dinsert_self] at hB
          simp only [Option.some.injEq, Prod.mk.injEq] at hB
          obtain ⟨g1, g2, g3⟩ := hB
          have hAT : A = T := by rw [← htb, ← g2]
          rw [hAT, hT] at hA
          exact absurd hA (by simp)
        · rw [dlookup_dinsert_ne _ _ _ _ hBX] at hB
          exact h A B pa ta qa pb tb qb hA hB hta htb
    | some r =>
      obtain ⟨lp, tt, tq⟩ := r
      dsimp only
      by_cases htt : tt = X
      · rw [if_pos htt]
        intro A B pa ta qa pb tb qb hA hB hta htb
        have hXT : ¬(X = T) := fun e => hTX e.symm
        have lookX : dlookup (dinsert T (lp, X, some p) (dinsert X (p, T, some lp) c)) X
            = some (p, T, some lp) := by
          rw [dlookup_dinsert_ne _ _ _ _ hXT, dlookup_dinsert_self]
        have lookT : dlookup (dinsert T (lp, X, some p) (dinsert X (p, T, some lp) c)) T
            = some (lp, X, some p) := dlookup_dinsert_self _ _ _
        have lookO : ∀ Y, ¬(Y = X) → ¬(Y = T) →
            dlookup (dinsert T (lp, X, some p) (dinsert X (p, T, some lp) c)) Y
              = dlookup c Y := by
          intro Y h1 h2
          rw [dlookup_dinsert_ne _ _ _ _ h2, dlookup_dinsert_ne _ _ _ _ h1]
        by_cases hAX : A = X
        · subst hAX
          rw [lookX] at hA
          simp only [Option.some.injEq, Prod.mk.injEq] at hA
          obtain ⟨h1, h2, h3⟩ := hA
          have hBT : B = T := by rw [← hta, ← h2]
          subst hBT
          rw [lookT] at hB
          simp only [Option.some.injEq, Prod.mk.injEq] at hB
          obtain ⟨g1, g2, g3⟩ := hB
          exact ⟨by rw [← h3, ← g1], by rw [← g3, ← h1]⟩
        · by_cases hAT : A = T
          · subst hAT
            rw [lookT] at hA
            simp only [Option.some.injEq, Prod.mk.injEq] at hA
            obtain ⟨h1, h2, h3⟩ := hA
            have hBX : B = X := by rw [← hta, ← h2]
            subst hBX
            rw [lookX] at hB
            simp only [Option.some.injEq, Prod.mk.injEq] at hB
            obtain ⟨g1, g2, g3⟩ := hB
            exact ⟨by rw [← h3, ← g1], by rw [← g3, ← h1]⟩
          · rw [lookO A hAX hAT] at hA
            by_cases hBX : B = X
            · subst hBX
              rw [lookX] at hB
              simp only [Option.some.injEq, Prod.mk.injEq] at hB
              obtain ⟨g1, g2, g3⟩ := hB
              exact absurd (by rw [← htb, ← g2] : A = T) hAT
            · by_cases hBT : B = T
              · subst hBT
                rw [lookT] at hB
                simp only [Option.some.injEq, Prod.mk.injEq] at hB
                obtain ⟨g1, g2, g3⟩ := hB
                exact absurd (by rw [← htb, ← g2] : A = X) hAX
              · rw [lookO B hBX hBT] at hB
                exact h A B pa ta qa pb tb qb hA hB hta htb
      · rw [if_neg htt]
        intro A B pa ta qa pb tb qb hA hB hta htb
        by_cases hAX : A = X
        · subst hAX
          rw [dlookup_dinsert_self] at hA
          simp only [Option.some.injEq, Prod.mk.injEq] at hA
          obtain ⟨h1, h2, h3⟩ := hA
          have hBT : B = T := by rw [← hta, ← h2]
          subst hBT
          rw [dlookup_dinsert_ne _ _ _ _ hTX, hT] at hB
          simp only [Option.some.injEq, Prod.mk.injEq] at hB
          obtain ⟨g1, g2, g3⟩ := hB
          exact absurd (by rw [g2, htb] : tt = A) htt
        · rw [dlookup_dinsert_ne _ _ _ _ hAX] at hA
          by_cases hBX : B = X
          · subst hBX
            rw [dlookup_dinsert_self] at hB
            simp only [Option.some.injEq, Prod.mk.injEq] at hB
            obtain ⟨g1, g2, g3⟩ := hB
            have hAT : A = T := by rw [← htb, ← g2]
            rw [hAT, hT] at hA
            simp only [Option.some.injEq, Prod.mk.injEq] at hA
            obtain ⟨h1, h2, h3⟩ := hA
            exact absurd (by rw [h2, hta] : tt = B) htt
          · rw [dlookup_dinsert_ne _ _ _ _ hBX] at hB
            exact h A B pa ta qa pb tb qb hA hB hta htb

theorem pairInv_empty : PairInv [] := by
  intro A B pa ta qa pb tb qb hA
  simp [dlookup] at hA

theorem pairInv_derase {c : RegMap} (h : PairInv c) (k : Host) : PairInv (derase k c) := by
  intro A B pa ta qa pb tb qb hA hB hta htb
  rw [dlookup_derase] at hA hB
  by_cases hAk : A = k
  · rw [if_pos hAk] at hA
    exact absurd hA (by simp)
  · rw [if_neg hAk] at hA
    by_cases hBk : B = k
    · rw [if_pos hBk] at hB
      exact absurd hB (by simp)
    · rw [if_neg hBk] at hB
      exact h A B pa ta qa pb tb qb hA hB hta htb

theorem pairInv_foldl_derase : ∀ (l : List Host) (c : RegMap), PairInv c →
    PairInv (l.foldl (fun c2 k => derase k c2) c) := by
  intro l
  induction l with
  | nil => intro c h; exact h
  | cons k t ih =>
    intro c h
    simp only [List.foldl_cons]
    exact ih (derase k c) (pairInv_derase h k)

/-! ## Claim theorems -/

/-- C1 (amended): the jitter-buffer emission of src/receiver.py behaves as
the claim states: on an empty buffer nothing is returned; otherwise the
smallest-sequence entry `(s, p)` is peeked and, when `expected_seq_num` is
unset or `s ≤ expected_seq_num`, popped with `expected_seq_num := s + 1`;
when `s > expected_seq_num` nothing is returned and nothing changes. The
`get_packet` of src/client.py, also cited by the claim, instead pops the
head unconditionally whenever the buffer is non-empty. -/
theorem get_packet_spec {α : Type} (jb : JitterBuffer α) :
    (jb.buffer = [] → receiver_get_packet jb = (jb, none) ∧ get_packet jb = (jb, none)) ∧
    (∀ s p rest, jb.buffer = (s, p) :: rest →
      (WF jb → ∀ q ∈ jb.buffer, s ≤ q.1) ∧
      (jb.expected_seq_num = none →
        receiver_get_packet jb =
          ({ jb with buffer := rest, expected_seq_num := some (s + 1) }, some (s, p))) ∧
      (∀ e, jb.expected_seq_num = some e → s ≤ e →
        receiver_get_packet jb =
          ({ jb with buffer := rest, expected_seq_num := some (s + 1) }, some (s, p))) ∧
      (∀ e, jb.expected_seq_num = some e → e < s → receiver_get_packet jb = (jb, none)) ∧
      get_packet jb =
        ({ jb with buffer := rest, expected_seq_num := some (s + 1) }, some (s, p))) := by
  constructor
  · intro hb
    constructor
    · simp [receiver_get_packet, hb]
    · simp [get_packet, hb]
  · intro s p rest hb
    refine ⟨?_, ?_, ?_, ?_, ?_⟩
    · intro hwf q hq
      rw [hb] at hq
      have hpair := hwf.1
      rw [hb] at hpair
      rcases List.mem_cons.mp hq with h1 | h1
      · rw [h1]
      · exact Nat.le_of_lt ((List.pairwise_cons.mp hpair).1 q h1)
    · intro he
      simp [receiver_get_packet, hb, he]
    · intro e he hse
      simp [receiver_get_packet, hb, he, hse]
    · intro e he hlt
      have hns : ¬(s ≤ e) := by omega
      simp [receiver_get_packet, hb, he, hns]
    · simp [get_packet, hb]

/-- C1 counterexample: on the buffer reached by `add 3; add 5; get` (capacity
8), the client-side `get_packet` has `expected_seq_num = 4` and head
sequence `5 > 4`, yet returns the packet instead of nothing. -/
theorem get_packet_claim_counterexample :
    (get_packet (add_packet (add_packet (mkJitterBuffer Nat 8) 3 0).1 5 0).1).1
      = ⟨[(5, 0)], 8, some 4⟩ ∧
    (get_packet (⟨[(5, 0)], 8, some 4⟩ : JitterBuffer Nat)).2 = some (5, 0) ∧
    4 < 5 := by decide

/-- C1 witness: a concrete emission through both variants. -/
theorem get_packet_spec_witness :
    receiver_get_packet (⟨[(2, 0), (7, 0)], 4, some 3⟩ : JitterBuffer Nat)
      = (⟨[(7, 0)], 4, some 3⟩, some (2, 0)) ∧
    get_packet (⟨[(2, 0), (7, 0)], 4, some 3⟩ : JitterBuffer Nat)
      = (⟨[(7, 0)], 4, some 3⟩, some (2, 0)) :=
  ⟨((get_packet_spec (⟨[(2, 0), (7, 0)], 4, some 3⟩ : JitterBuffer Nat)).2
      2 0 [(7, 0)] rfl).2.2.1 3 rfl (by decide),
   ((get_packet_spec (⟨[(2, 0), (7, 0)], 4, some 3⟩ : JitterBuffer Nat)).2
      2 0 [(7, 0)] rfl).2.2.2.2⟩

/-- C3 (amended): successive successful emissions with no intervening
`add_packet` are strictly increasing, for both `get_packet` variants; the
claim's full non-decreasing property over arbitrary interleavings fails,
because an insertion of a not-yet-stale straggler below the last emitted
sequence can be emitted next. -/
theorem emission_monotone_between_gets {α : Type} (jb : JitterBuffer α) :
    (∀ s p s2 p2, WF jb → (get_packet jb).2 = some (s, p) →
      (get_packet (get_packet jb).1).2 = some (s2, p2) → s < s2) ∧
    (∀ s p s2 p2, WF jb → (receiver_get_packet jb).2 = some (s, p) →
      (receiver_get_packet (receiver_get_packet jb).1).2 = some (s2, p2) → s < s2) := by
  obtain ⟨buf, m, e⟩ := jb
  constructor
  · intro s p s2 p2 hwf h1 h2
    cases buf with
    | nil => exact absurd h1 (by simp [get_packet])
    | cons x rest =>
      obtain ⟨sx, dx⟩ := x
      simp [get_packet] at h1
      cases rest with
      | nil => exact absurd h2 (by simp [get_packet])
      | cons y rest2 =>
        obtain ⟨sy, dy⟩ := y
        simp [get_packet] at h2
        have hlt : sx < sy := (List.pairwise_cons.mp hwf.1).1 (sy, dy) (by simp)
        omega
  · intro s p s2 p2 hwf h1 h2
    cases buf with
    | nil => exact absurd h1 (by simp [receiver_get_packet])
    | cons x rest =>
      obtain ⟨sx, dx⟩ := x
      cases e with
      | none =>
        simp only [receiver_get_packet] at h1 h2
        simp at h1
        cases rest with
        | nil => exact absurd h2 (by simp)
        | cons y rest2 =>
          obtain ⟨sy, dy⟩ := y
          have hlt : sx < sy := (List.pairwise_cons.mp hwf.1).1 (sy, dy) (by simp)
          by_cases hle : sy ≤ sx + 1
          · simp [hle] at h2
            omega
          · simp [hle] at h2
      | some e0 =>
        by_cases hle : sx ≤ e0
        · simp [receiver_get_packet, hle] at h1
          cases rest with
          | nil => exact absurd h2 (by simp [receiver_get_packet, hle])
          | cons y rest2 =>
            obtain ⟨sy, dy⟩ := y
            have hlt : sx < sy := (List.pairwise_cons.mp hwf.1).1 (sy, dy) (by simp)
            by_cases hle2 : sy ≤ sx + 1
            · simp [receiver_get_packet, hle, hle2] at h2
              omega
            · simp [receiver_get_packet, hle, hle2] at h2
        · simp [receiver_get_packet, hle] at h1

/-- C3 counterexample: with capacity 8, the call sequence
`add 5; get; add 2; get` emits 5 and then 2: the emitted sequence numbers
decrease across the intervening insertion. -/
theorem emission_monotonicity_counterexample :
    (get_packet (add_packet (mkJitterBuffer Nat 8) 5 0).1).2 = some (5, 0) ∧
    (get_packet (add_packet (get_packet (add_packet (mkJitterBuffer Nat 8) 5 0).1).1 2 0).1).2
      = some (2, 0) ∧
    2 < 5 := by decide

/-- C3 witness: two consecutive emissions from a concrete well-formed buffer. -/
theorem emission_monotone_between_gets_witness :
    (1 : Nat) < 4 ∧ WF (⟨[(1, 0), (4, 0)], 4, some 2⟩ : JitterBuffer Nat) :=
  ⟨(emission_monotone_between_gets (⟨[(1, 0), (4, 0)], 4, some 2⟩ : JitterBuffer Nat)).1
      1 0 4 0 (by decide) (by decide) (by decide),
   by decide⟩

/-- C7: `add_packet` and both `get_packet` variants preserve well-formedness
(no duplicate sequences, entries sorted strictly by sequence, size at most
`max_size`), so every sequence of calls from a fresh buffer stays
well-formed; inserting a `(max_size+1)`-th distinct, non-stale sequence into
a full buffer keeps all candidates except a minimal-sequence one (the head
of the sorted candidate list); and when `expected_seq_num` is set, an
insertion with `seq + max_size < expected_seq_num` is rejected with no state
change. -/
theorem add_packet_invariants {α : Type} :
    (∀ (jb : JitterBuffer α) (s : Nat) (d : α), WF jb → WF (add_packet jb s d).1) ∧
    (∀ jb : JitterBuffer α, WF jb → WF (get_packet jb).1 ∧ WF (receiver_get_packet jb).1) ∧
    (∀ (m : Nat) (ops : List (JBOp α)), WF (applyOps (mkJitterBuffer α m) ops)) ∧
    (∀ (jb : JitterBuffer α) (s : Nat) (d : α), WF jb → jb.buffer.length = jb.max_size →
      1 ≤ jb.max_size → isStale jb s = false → s ∉ jb.buffer.map Prod.fst →
      ∃ x rest, List.insertionSort seqLE (jb.buffer ++ [(s, d)]) = x :: rest ∧
        add_packet jb s d = ({ jb with buffer := rest }, true) ∧
        (∀ q ∈ jb.buffer ++ [(s, d)], x.1 ≤ q.1) ∧ x ∈ jb.buffer ++ [(s, d)]) ∧
    (∀ (jb : JitterBuffer α) (s : Nat) (d : α) (e : Nat), jb.expected_seq_num = some e →
      s + jb.max_size < e → add_packet jb s d = (jb, false)) := by
  refine ⟨?_, ?_, ?_, ?_, ?_⟩
  · intro jb s d h
    exact wf_add_packet h s d
  · intro jb h
    exact ⟨wf_get_packet h, wf_receiver_get_packet h⟩
  · intro m ops
    exact wf_applyOps ops _ ⟨List.Pairwise.nil, Nat.zero_le _⟩
  · intro jb s d hwf hlen hm hst hdup
    have hne : jb.buffer.isEmpty = false := by
      cases hb : jb.buffer with
      | nil =>
        rw [hb] at hlen
        simp at hlen
        omega
      | cons a t => simp [hb]
    have heq := add_packet_eq_sort jb s d hst hne hdup
    obtain ⟨hlt, hperm⟩ := @temp_pairwise_lt α jb.buffer s d hwf.1 hdup
    have hlen2 : (List.insertionSort seqLE (jb.buffer ++ [(s, d)])).length
        = jb.max_size + 1 := by
      rw [hperm.length_eq]
      simp [hlen]
    cases htemp : List.insertionSort seqLE (jb.buffer ++ [(s, d)]) with
    | nil =>
      rw [htemp] at hlen2
      simp at hlen2
    | cons x rest =>
      refine ⟨x, rest, rfl, ?_, ?_, ?_⟩
      · rw [heq]
        have hm0 : ¬(jb.max_size = 0) := by omega
        have hrl : rest.length = jb.max_size := by
          rw [htemp] at hlen2
          simp at hlen2
          omega
        have hsr : sortResult jb s d = rest := by
          simp only [sortResult, htemp]
          rw [if_neg hm0]
          have hdrop : (x :: rest).drop ((x :: rest).length - jb.max_size) = rest := by
            simp [hrl]
          rw [hdrop]
          have hfd := foldl_dappend_eq jb.max_size rest [] (by simp [hrl])
          simpa using hfd
        rw [hsr]
      · intro q hq
        have hq2 : q ∈ x :: rest := by
          rw [← htemp]
          exact hperm.mem_iff.mpr hq
        rcases List.mem_cons.mp hq2 with h1 | h1
        · rw [h1]
        · have hxq := (List.pairwise_cons.mp (htemp ▸ hlt)).1 q h1
          exact Nat.le_of_lt hxq
      · have hx : x ∈ x :: rest := by simp
        rw [← htemp] at hx
        exact hperm.subset hx
  · intro jb s d e he hst2
    apply add_packet_eq_stale
    simp [isStale, he]
    exact hst2

/-- C7 witness: a full capacity-2 buffer evicting on a fresh insertion, and a
stale insertion rejected unchanged. -/
theorem add_packet_invariants_witness :
    WF (add_packet (⟨[(1, 0), (2, 0)], 2, some 1⟩ : JitterBuffer Nat) 3 0).1 ∧
    add_packet (⟨[(1, 0), (2, 0)], 2, some 9⟩ : JitterBuffer Nat) 4 0
      = (⟨[(1, 0), (2, 0)], 2, some 9⟩, false) :=
  ⟨(@add_packet_invariants Nat).1 (⟨[(1, 0), (2, 0)], 2, some 1⟩ : JitterBuffer Nat) 3 0
      (by decide),
   (@add_packet_invariants Nat).2.2.2.2 (⟨[(1, 0), (2, 0)], 2, some 9⟩ : JitterBuffer Nat)
      4 0 9 rfl (by decide)⟩

/-- C2 (amended): HELLO is rejected with FULL exactly when the registry
already holds at least `MAX_CLIENTS` records, regardless of whether the
caller's host is already registered (the handler's only test is
`len(clients) < MAX_CLIENTS`); a FULL reply leaves the registry and the
heartbeat table unchanged. -/
theorem hello_full_iff (s : ServerState) (X : Host) (p : Nat) (T : Host) (now : Nat) :
    ((helloStep s X p T now).2 = Reply.FULL ↔ MAX_CLIENTS ≤ s.clients.length) ∧
    ((helloStep s X p T now).2 = Reply.FULL → helloStep s X p T now = (s, Reply.FULL)) := by
  by_cases h : s.clients.length < MAX_CLIENTS
  · constructor
    · simp only [helloStep, if_pos h]
      constructor
      · intro hc
        exact absurd hc (by simp)
      · intro hc
        omega
    · simp only [helloStep, if_pos h]
      intro hc
      exact absurd hc (by simp)
  · constructor
    · simp only [helloStep, if_neg h]
      constructor
      · intro _
        exact Nat.le_of_not_lt h
      · intro _
        trivial
    · simp only [helloStep, if_neg h]
      intro _
      trivial

/-- C2 counterexample: `fullState` holds `MAX_CLIENTS` records, one of them
for host `[0]`; a new HELLO from the already-registered host `[0]` is
answered FULL and changes nothing, where the claim requires an in-place
update with a WELCOME. -/
theorem hello_full_reregistration_counterexample :
    dlookup fullState.clients [0] = some (100, [99], none) ∧
    fullState.clients.length = MAX_CLIENTS ∧
    (helloStep fullState [0] 7 [3] 5).2 = Reply.FULL ∧
    (helloStep fullState [0] 7 [3] 5).1 = fullState := by decide

/-- C2 witness: a FULL reply at the full registry, via the theorem. -/
theorem hello_full_iff_witness :
    (helloStep fullState [42] 1 [2] 0).2 = Reply.FULL :=
  (hello_full_iff fullState [42] 1 [2] 0).1.mpr (by decide)

/-- C4 (amended): the forwarder emits nothing when the source host has no
record or the record's `target_port` is unset; when `target_port` is set it
emits exactly one datagram with bit-identical payload to
`(target_host, target_port)` provided the record's `target_host` is
non-empty and `target_port` is non-zero — records with an empty
`target_host` or with `target_port = 0` are dropped by the truthiness test
`if target_ip and target_port`. -/
theorem handle_client_spec (clients : RegMap) (data : List Nat) (H : Host) :
    (dlookup clients H = none → handle_client clients data H = []) ∧
    (∀ lp t, dlookup clients H = some (lp, t, none) → handle_client clients data H = []) ∧
    (∀ lp t tp, dlookup clients H = some (lp, t, some tp) → t ≠ [] → tp ≠ 0 →
      handle_client clients data H = [(data, t, tp)]) ∧
    (∀ lp t, dlookup clients H = some (lp, t, some 0) → handle_client clients data H = []) ∧
    (∀ lp tp, dlookup clients H = some (lp, [], tp) → handle_client clients data H = []) := by
  refine ⟨?_, ?_, ?_, ?_, ?_⟩
  · intro h
    simp [handle_client, h]
  · intro lp t h
    simp [handle_client, h]
  · intro lp t tp h ht htp
    simp [handle_client, h, ht, htp]
  · intro lp t h
    simp [handle_client, h]
  · intro lp tp h
    cases tp with
    | none => simp [handle_client, h]
    | some v => simp [handle_client, h]

/-- C4 counterexample: after `[1]` registers with listen port 0 targeting
`[2]` and `[2]` registers targeting `[1]`, host `[2]` has a record with a
known `target_port` (0), yet its datagram is dropped — the claim requires
exactly one forwarded datagram whenever the record and its target port
exist. -/
theorem handle_client_port_zero_counterexample :
    dlookup ((helloStep (helloStep { clients := [], heartbeat := [] } [1] 0 [2] 0).1
        [2] 7 [1] 0).1).clients [2] = some (7, [1], some 0) ∧
    handle_client ((helloStep (helloStep { clients := [], heartbeat := [] } [1] 0 [2] 0).1
        [2] 7 [1] 0).1).clients [42] [2] = [] := by decide

/-- C4 witness: a registered record with resolved non-zero port forwards one
bit-identical datagram. -/
theorem handle_client_spec_witness :
    handle_client [([1], (5, [2], some 9))] [7] [1] = [([7], [2], 9)] :=
  (handle_client_spec [([1], (5, [2], some 9))] [7] [1]).2.2.1 5 [2] 9 (by decide)
    (by decide) (by decide)

/-- C5: in every server state reachable by HELLO, HEARTBEAT, DISCONNECT and
sweeper operations, mutual pairing is resolved: whenever records A and B
target each other's hosts, each one's `target_port` equals the other's
`listen_port`. -/
theorem mutual_pairing_invariant : ∀ s : ServerState, Reachable s → PairInv s.clients := by
  intro s h
  induction h with
  | init => exact pairInv_empty
  | hello X p t now _ ih =>
    simp only [helloStep]
    split
    · exact pairInv_helloClients ih X p t
    · exact ih
  | heartbeat X now _ ih => exact ih
  | disconnect X _ ih => exact pairInv_derase ih X
  | sweep now _ ih => exact pairInv_foldl_derase _ _ ih

/-- C5 witness: the invariant at the state where `[1]` and `[2]` have
registered targeting each other. -/
theorem mutual_pairing_invariant_witness :
    PairInv ((helloStep (helloStep { clients := [], heartbeat := [] } [1] 5 [2] 0).1
      [2] 6 [1] 0).1).clients :=
  mutual_pairing_invariant _
    (Reachable.hello [2] 6 [1] 0 (Reachable.hello [1] 5 [2] 0 Reachable.init))

/-- C6 (amended): `Receiver.start` (src/receiver.py) drops every datagram
whose source host differs from the configured `server_ip`, leaving the
jitter buffer and the `eot_received` flag unchanged; `Client.receive_audio`
(src/client.py), also cited by the claim, performs no source check at all:
its behaviour is independent of the datagram's source host. -/
theorem source_check_spec :
    (∀ (sip : Host) (st : RecvState) (pkt : List Nat) (src : Host), src ≠ sip →
      receiver_start_step sip st pkt src = st) ∧
    (∀ (st : RecvState) (pkt : List Nat) (src src2 : Host),
      receive_audio_step st pkt src = receive_audio_step st pkt src2) := by
  constructor
  · intro sip st pkt src h
    simp [receiver_start_step, h]
  · intro st pkt src src2
    rfl

/-- C6 counterexample: a 4-byte EOT datagram from host `[2]`, different from
the configured server host `[1]`, still sets `eot_received` in the client's
receive loop — the claim requires it to be dropped. -/
theorem client_source_check_counterexample :
    ([2] : Host) ≠ [1] ∧
    (receive_audio_step { jb := mkJitterBuffer (List Nat) 8, eot_received := false }
      (be32bytes EOT_SEQ_NUM) [2]).eot_received = true := by decide

/-- C6 witness: the receiver variant drops a foreign-source EOT datagram. -/
theorem source_check_spec_witness :
    receiver_start_step [1] { jb := mkJitterBuffer (List Nat) 4, eot_received := false }
      (be32bytes EOT_SEQ_NUM) [2]
      = { jb := mkJitterBuffer (List Nat) 4, eot_received := false } :=
  source_check_spec.1 [1] { jb := mkJitterBuffer (List Nat) 4, eot_received := false }
    (be32bytes EOT_SEQ_NUM) [2] (by decide)

/-- C8: DISCONNECT removes exactly the caller's registry record and
heartbeat entry, so DISCONNECT for H followed by HELLO from H produces the
same state (same registry and heartbeat contents, timestamps included since
the same `now` is used) as that HELLO performed on the state with H's
entries absent. -/
theorem disconnect_hello_fresh (s : ServerState) (X : Host) (p : Nat) (T : Host) (now : Nat) :
    (disconnectStep s X).1
      = { clients := derase X s.clients, heartbeat := derase X s.heartbeat } ∧
    helloStep (disconnectStep s X).1 X p T now
      = helloStep { clients := derase X s.clients, heartbeat := derase X s.heartbeat }
          X p T now :=
  ⟨rfl, rfl⟩

/-- C9: HEARTBEAT from any host, registered or not, leaves the registry
unchanged, stores the current time under the caller's host, and replies
ALIVE; consecutive heartbeats collapse to the effect of the last one. -/
theorem heartbeat_idempotent (s : ServerState) (X : Host) (t1 t2 : Nat) :
    heartbeatStep s X t1
      = ({ clients := s.clients, heartbeat := dinsert X t1 s.heartbeat }, Reply.ALIVE) ∧
    (heartbeatStep (heartbeatStep s X t1).1 X t2).1.clients = s.clients ∧
    (heartbeatStep (heartbeatStep s X t1).1 X t2).1 = (heartbeatStep s X t2).1 := by
  refine ⟨rfl, rfl, ?_⟩
  have hcollapse : dinsert X t2 (dinsert X t1 s.heartbeat) = dinsert X t2 s.heartbeat :=
    dinsert_dinsert _ _ _ _
  simp [heartbeatStep, hcollapse]

/-- C10: a 9-byte HELLO (tag, 4-byte port, empty target) is accepted with
WELCOME when the registry has room, registering a record whose target host
is the empty string; and the forwarder drops every datagram from a host
whose record carries an empty target host, whatever its target port. -/
theorem empty_target_hello :
    (∀ (s : ServerState) (X : Host) (p now : Nat), s.clients.length < MAX_CLIENTS →
      p < 4294967296 →
      (handle_tcp_client (helloTag ++ be32bytes p) X now s).2 = Reply.WELCOME ∧
      ∃ q, dlookup (handle_tcp_client (helloTag ++ be32bytes p) X now s).1.clients X
        = some (p, [], q)) ∧
    (∀ (c : RegMap) (d : List Nat) (H : Host) (lp : Nat) (q : Option Nat),
      dlookup c H = some (lp, [], q) → handle_client c d H = []) := by
  constructor
  · intro s X p now hlen hp
    have h1 : helloTag.isPrefixOf (helloTag ++ be32bytes p) = true := by
      simp [helloTag, List.isPrefixOf]
    have h5 : be32 (be32bytes p) = p := by
      simp only [be32, be32bytes]
      omega
    have hdata : handle_tcp_client (helloTag ++ be32bytes p) X now s
        = helloStep s X p [] now := by
      simp [handle_tcp_client, h1, helloTag, be32bytes, h5]
      rw [show be32 [p / 16777216 % 256, p / 65536 % 256, p / 256 % 256, p % 256] = p
        from by simp only [be32]; omega]
    rw [hdata]
    unfold helloStep
    rw [if_pos hlen]
    constructor
    · rfl
    · show ∃ q, dlookup (helloClients s.clients X p []) X = some (p, [], q)
      rw [helloClients_eq]
      by_cases hX : ([] : Host) = X
      · rw [if_pos hX]
        exact ⟨some p, by rw [dlookup_dinsert_self, ← hX]⟩
      · rw [if_neg hX]
        cases hT : dlookup s.clients [] with
        | none => exact ⟨none, dlookup_dinsert_self _ _ _⟩
        | some r =>
          dsimp only
          by_cases hr : r.2.1 = X
          · rw [if_pos hr]
            refine ⟨some r.1, ?_⟩
            rw [dlookup_dinsert_ne _ _ _ _ (fun e => hX e.symm), dlookup_dinsert_self]
          · rw [if_neg hr]
            exact ⟨some r.1, dlookup_dinsert_self _ _ _⟩
  · intro c d H lp q h
    cases q with
    | none => simp [handle_client, h]
    | some v => simp [handle_client, h]

/-- C10 witness: a 9-byte HELLO with port 20000 on the empty registry is
welcomed, and a record with empty target host forwards nothing. -/
theorem empty_target_hello_witness :
    (handle_tcp_client (helloTag ++ be32bytes 20000) [1] 0
      { clients := [], heartbeat := [] }).2 = Reply.WELCOME ∧
    handle_client [([1], (5, [], some 3))] [7] [1] = [] :=
  ⟨(empty_target_hello.1 { clients := [], heartbeat := [] } [1] 20000 0 (by decide)
      (by decide)).1,
   empty_target_hello.2 [([1], (5, [], some 3))] [7] [1] 5 (some 3) (by decide)⟩
